import Mathlib

/-!
Verification of the stock-predictor ML service forecasting pipeline.

Shallow embedding of `app/models/monte_carlo.py`, `app/models/lstm_model.py`,
`app/features/engineering.py` and the per-horizon ensemble loop of
`app/predict.py`.  Python floats are modelled as exact rationals (ℚ); the
external numeric library routines (`np.exp`, `np.sqrt`, the seeded normal
generator of `np.random`, `np.percentile`) are modelled by deterministic
computable rational functions with the behaviour the pipeline relies on.
A second model over `Option ℚ` (`none` = non-finite / NaN) tracks NaN
propagation through the Monte Carlo block.
-/

/-! ## Numeric helpers (models of the numpy scalar routines) -/

/-- Truncated Taylor series of the exponential, used for nonnegative
arguments.  Every summand is nonnegative and the constant term is 1. -/
def taylorExp (x : ℚ) : ℚ :=
  (Finset.range 20).sum (fun k => x ^ k / (Nat.factorial k : ℚ))

/-- Rational model of `np.exp`: a strictly positive exponential
approximation (truncated Taylor series, with the reciprocal used for
negative arguments, so that strict positivity — the property of `exp` the
code relies on — holds everywhere). -/
def qexp (x : ℚ) : ℚ :=
  if 0 ≤ x then taylorExp x else 1 / taylorExp (-x)

/-- Rational model of `np.sqrt` (fixed-precision integer square root of the
scaled argument).  Deterministic; no claim depends on the numeric value of
a square root. -/
def sqrtQ (x : ℚ) : ℚ :=
  (Nat.sqrt ((x.num.toNat * 10 ^ 12) / x.den) : ℚ) / 10 ^ 6

/-- Python's `round` to an integer: round-half-to-even (banker's rounding). -/
def roundHalfEven (q : ℚ) : ℤ :=
  if q - ⌊q⌋ < 1 / 2 then ⌊q⌋
  else if 1 / 2 < q - ⌊q⌋ then ⌊q⌋ + 1
  else if ⌊q⌋ % 2 = 0 then ⌊q⌋ else ⌊q⌋ + 1

/-- Python's `round(x, 2)` on the exact-rational model of floats. -/
def round2 (q : ℚ) : ℚ := (roundHalfEven (q * 100) : ℚ) / 100

theorem taylorExp_pos {x : ℚ} (hx : 0 ≤ x) : 0 < taylorExp x := by
  unfold taylorExp
  apply Finset.sum_pos'
  · intro k _
    exact div_nonneg (pow_nonneg hx k) (by positivity)
  · exact ⟨0, by simp⟩

theorem qexp_pos (x : ℚ) : 0 < qexp x := by
  unfold qexp
  split
  · exact taylorExp_pos (by assumption)
  · have h : 0 ≤ -x := by linarith [not_le.mp (by assumption : ¬ 0 ≤ x)]
    exact div_pos one_pos (taylorExp_pos h)

/-! ## `np.percentile` (linear interpolation on the sorted sample) -/

/-- Linear interpolation of a sorted sample at fractional position `pos`,
as `np.percentile` computes it: with `i = ⌊pos⌋`, the value is
`s[i] + (pos - i) * (s[i+1] - s[i])` (the upper neighbour collapses to the
lower one at the right edge). -/
def interpSorted (s : List ℚ) (pos : ℚ) : ℚ :=
  let i : ℕ := (⌊pos⌋).toNat
  let lo := s.getD i 0
  let hi := s.getD (i + 1) lo
  lo + (pos - (i : ℚ)) * (hi - lo)

/-- Model of `np.percentile(xs, q)` (default linear interpolation method):
sort the sample and interpolate at position `q / 100 * (n - 1)`. -/
def npPercentile (xs : List ℚ) (q : ℚ) : ℚ :=
  if xs.length = 0 then 0
  else interpSorted (xs.insertionSort (· ≤ ·)) (q / 100 * ((xs.length : ℚ) - 1))

theorem sorted_getD_mono (s : List ℚ) (hs : s.Sorted (· ≤ ·)) {i j : ℕ}
    (d e : ℚ) (hij : i ≤ j) (hj : j < s.length) : s.getD i d ≤ s.getD j e := by
  have hi : i < s.length := lt_of_le_of_lt hij hj
  rw [List.getD_eq_getElem?_getD, List.getElem?_eq_getElem hi,
    List.getD_eq_getElem?_getD, List.getElem?_eq_getElem hj]
  simpa using hs.rel_get_of_le (by exact_mod_cast hij : (⟨i, hi⟩ : Fin s.length) ≤ ⟨j, hj⟩)

theorem interpSorted_eq (s : List ℚ) (p : ℚ) :
    interpSorted s p = s.getD (⌊p⌋).toNat 0 +
      (p - ((⌊p⌋).toNat : ℚ)) *
        (s.getD ((⌊p⌋).toNat + 1) (s.getD (⌊p⌋).toNat 0) - s.getD (⌊p⌋).toNat 0) := rfl

theorem interpSorted_key (s : List ℚ) (hs : s.Sorted (· ≤ ·)) (p1 p2 : ℚ) (i j : ℕ)
    (hle1 : (i : ℚ) ≤ p1) (hlt1 : p1 < (i : ℚ) + 1)
    (hle2 : (j : ℚ) ≤ p2) (h12 : p1 ≤ p2) (hij : i ≤ j) (hjn : j < s.length) :
    s.getD i 0 + (p1 - (i : ℚ)) * (s.getD (i + 1) (s.getD i 0) - s.getD i 0) ≤
      s.getD j 0 + (p2 - (j : ℚ)) * (s.getD (j + 1) (s.getD j 0) - s.getD j 0) := by
  rcases eq_or_lt_of_le hij with heq | hlt
  · subst heq
    have hlohi : s.getD i 0 ≤ s.getD (i + 1) (s.getD i 0) := by
      by_cases hin : i + 1 < s.length
      · exact sorted_getD_mono s hs 0 _ (Nat.le_succ i) hin
      · rw [List.getD_eq_default _ _ (show s.length ≤ i + 1 by omega)]
    have hg : p1 - (i : ℚ) ≤ p2 - (i : ℚ) := by linarith
    nlinarith [mul_le_mul_of_nonneg_right hg
      (by linarith : (0 : ℚ) ≤ s.getD (i + 1) (s.getD i 0) - s.getD i 0)]
  · have hstep : i + 1 ≤ j := hlt
    have hi1lt : i + 1 < s.length := lt_of_le_of_lt hstep hjn
    have h1 : s.getD i 0 ≤ s.getD (i + 1) (s.getD i 0) :=
      sorted_getD_mono s hs 0 _ (Nat.le_succ i) hi1lt
    have h2 : s.getD (i + 1) (s.getD i 0) ≤ s.getD j 0 :=
      sorted_getD_mono s hs _ 0 hstep hjn
    have h3 : s.getD j 0 ≤ s.getD (j + 1) (s.getD j 0) := by
      by_cases hin : j + 1 < s.length
      · exact sorted_getD_mono s hs 0 _ (Nat.le_succ j) hin
      · rw [List.getD_eq_default _ _ (show s.length ≤ j + 1 by omega)]
    have hup : s.getD i 0 + (p1 - (i : ℚ)) * (s.getD (i + 1) (s.getD i 0) - s.getD i 0) ≤
        s.getD (i + 1) (s.getD i 0) := by
      nlinarith [mul_le_mul_of_nonneg_right (by linarith : p1 - (i : ℚ) ≤ 1)
        (by linarith : (0 : ℚ) ≤ s.getD (i + 1) (s.getD i 0) - s.getD i 0)]
    have hdown : s.getD j 0 ≤
        s.getD j 0 + (p2 - (j : ℚ)) * (s.getD (j + 1) (s.getD j 0) - s.getD j 0) := by
      nlinarith [mul_nonneg (by linarith : (0 : ℚ) ≤ p2 - (j : ℚ))
        (by linarith : (0 : ℚ) ≤ s.getD (j + 1) (s.getD j 0) - s.getD j 0)]
    linarith

theorem interpSorted_mono (s : List ℚ) (hs : s.Sorted (· ≤ ·)) {p1 p2 : ℚ}
    (h0 : 0 ≤ p1) (h12 : p1 ≤ p2) (hn : p2 ≤ (s.length : ℚ) - 1) :
    interpSorted s p1 ≤ interpSorted s p2 := by
  have h0' : (0 : ℚ) ≤ p2 := le_trans h0 h12
  have hfl1 : 0 ≤ ⌊p1⌋ := Int.floor_nonneg.mpr h0
  have hfl2 : 0 ≤ ⌊p2⌋ := Int.floor_nonneg.mpr h0'
  have hc1 : (((⌊p1⌋).toNat : ℕ) : ℚ) = ((⌊p1⌋ : ℤ) : ℚ) := by
    exact_mod_cast congrArg (fun z : ℤ => (z : ℚ)) (Int.toNat_of_nonneg hfl1)
  have hc2 : (((⌊p2⌋).toNat : ℕ) : ℚ) = ((⌊p2⌋ : ℤ) : ℚ) := by
    exact_mod_cast congrArg (fun z : ℤ => (z : ℚ)) (Int.toNat_of_nonneg hfl2)
  have hle1 : (((⌊p1⌋).toNat : ℕ) : ℚ) ≤ p1 := by
    rw [hc1]; exact Int.floor_le p1
  have hlt1 : p1 < (((⌊p1⌋).toNat : ℕ) : ℚ) + 1 := by
    rw [hc1]; exact Int.lt_floor_add_one p1
  have hle2 : (((⌊p2⌋).toNat : ℕ) : ℚ) ≤ p2 := by
    rw [hc2]; exact Int.floor_le p2
  have hii : (⌊p1⌋).toNat ≤ (⌊p2⌋).toNat := Int.toNat_le_toNat (Int.floor_le_floor h12)
  have hjn : (⌊p2⌋).toNat < s.length := by
    have h1 : (((⌊p2⌋).toNat : ℕ) : ℚ) ≤ (s.length : ℚ) - 1 := le_trans hle2 hn
    have h2 : (((⌊p2⌋).toNat : ℕ) : ℚ) + 1 ≤ (s.length : ℚ) := by linarith
    exact_mod_cast h2
  rw [interpSorted_eq, interpSorted_eq]
  exact interpSorted_key s hs p1 p2 _ _ hle1 hlt1 hle2 h12 hii hjn

theorem npPercentile_mono (xs : List ℚ) {q1 q2 : ℚ}
    (h1 : 0 ≤ q1) (h2 : q1 ≤ q2) (h3 : q2 ≤ 100) :
    npPercentile xs q1 ≤ npPercentile xs q2 := by
  unfold npPercentile
  split
  · exact le_refl 0
  · have hn : xs.length ≠ 0 := by assumption
    have hn1 : 1 ≤ xs.length := Nat.one_le_iff_ne_zero.mpr hn
    have hlen : (xs.insertionSort (· ≤ ·)).length = xs.length :=
      (List.perm_insertionSort _ xs).length_eq
    have hnn : (0 : ℚ) ≤ (xs.length : ℚ) - 1 := by
      have : (1 : ℚ) ≤ (xs.length : ℚ) := by exact_mod_cast hn1
      linarith
    apply interpSorted_mono _ (List.sorted_insertionSort _ xs)
    · positivity
    · apply mul_le_mul_of_nonneg_right _ hnn
      exact div_le_div_of_nonneg_right h2 (by norm_num)
    · rw [hlen]
      have hq : q2 / 100 ≤ 1 := by linarith [div_le_one_of_le (by linarith : q2 ≤ 100) (by norm_num : (0:ℚ) ≤ 100)]
      nlinarith

/-! ## `app/models/monte_carlo.py` — `monte_carlo_simulation`

`np.random.seed(42)` overwrites the global generator state, so the shock
matrix `Z` depends only on the constant seed; the ambient RNG state is
threaded explicitly to make that visible. -/

/-- Modelled: the (i, t) entry of the standard-normal draw matrix produced
by NumPy's global generator right after `np.random.seed seed`.  A concrete
deterministic stream; no claim depends on the actual values, only on the
fact that they are a function of the seed and the position. -/
def gauss (seed i t : ℕ) : ℚ :=
  ((((seed * 2654435761 + i * 40503 + t * 69069) % 2001 : ℕ) : ℚ) - 1000) / 1000

/-- Return record of `monte_carlo_simulation` (the Python dict). -/
structure MCResult where
  p10 : ℚ
  p25 : ℚ
  p50 : ℚ
  p75 : ℚ
  p90 : ℚ
  mean : ℚ
  std : ℚ
deriving DecidableEq

/-- One entry of `daily_returns`:
`exp((mu - 0.5 σ²) dt + σ √dt · Z[i, t])` with `dt = 1/252`. -/
def dailyReturn (mu sigma : ℚ) (seed i t : ℕ) : ℚ :=
  qexp ((mu - sigma ^ 2 / 2) * (1 / 252) + sigma * sqrtQ (1 / 252) * gauss seed i t)

/-- `paths[i, t]`: price of path `i` after `t` daily steps
(`paths[:, 0] = last_price`, `paths[:, t] = paths[:, t-1] * daily_returns[:, t-1]`). -/
def pathPrice (lp mu sigma : ℚ) (seed i : ℕ) : ℕ → ℚ
  | 0 => lp
  | t + 1 => pathPrice lp mu sigma seed i t * dailyReturn mu sigma seed i t

/-- `final_prices = paths[:, -1]`, one terminal price per simulated path.
`rngState` is the ambient global NumPy RNG state; `np.random.seed(42)`
replaces it with the constant 42 before any draw. -/
def mcFinalPrices (rngState : ℕ) (last_price annual_return annual_volatility : ℚ)
    (days n_simulations : ℕ) : List ℚ :=
  let seeded : ℕ := 42
  (List.range n_simulations).map (fun i => pathPrice last_price annual_return annual_volatility seeded i days)

def listMean (xs : List ℚ) : ℚ := xs.sum / (xs.length : ℚ)

def listStd (xs : List ℚ) : ℚ :=
  sqrtQ ((xs.map (fun x => (x - listMean xs) ^ 2)).sum / (xs.length : ℚ))

/-- `monte_carlo_simulation(last_price, annual_return, annual_volatility,
days, n_simulations=1000)` of `app/models/monte_carlo.py`, over the
exact-rational float model. -/
def monte_carlo_simulation (rngState : ℕ)
    (last_price annual_return annual_volatility : ℚ)
    (days : ℕ) (n_simulations : ℕ := 1000) : MCResult :=
  let final_prices :=
    mcFinalPrices rngState last_price annual_return annual_volatility days n_simulations
  { p10 := npPercentile final_prices 10
    p25 := npPercentile final_prices 25
    p50 := npPercentile final_prices 50
    p75 := npPercentile final_prices 75
    p90 := npPercentile final_prices 90
    mean := listMean final_prices
    std := listStd final_prices }

/-! ## NaN-propagation model of the Monte Carlo block

`FQ` models a Python float that may be non-finite: `none` stands for
NaN (or a non-finite value more generally); every arithmetic operation and
`np.exp` propagate it, and `np.percentile` of a sample containing a
non-finite value yields NaN (NumPy emits a `RuntimeWarning`, not an
exception).  This mirrors `monte_carlo_simulation` exactly, which contains
no finiteness check and no `raise`. -/

abbrev FQ := Option ℚ

def fAdd : FQ → FQ → FQ
  | some x, some y => some (x + y)
  | _, _ => none

def fSub : FQ → FQ → FQ
  | some x, some y => some (x - y)
  | _, _ => none

def fMul : FQ → FQ → FQ
  | some x, some y => some (x * y)
  | _, _ => none

def fDiv : FQ → FQ → FQ
  | some x, some y => some (x / y)
  | _, _ => none

def fExp (x : FQ) : FQ := x.map qexp

/-- `np.percentile` on a sample of possibly-non-finite floats: NaN as soon
as one sample point is NaN (and undefined — modelled NaN — on an empty
sample). -/
def fPercentile (xs : List FQ) (q : ℚ) : FQ :=
  if xs.any Option.isNone ∨ xs.length = 0 then none
  else some (npPercentile (xs.map (fun x => x.getD 0)) q)

structure MCResultF where
  p10 : FQ
  p25 : FQ
  p50 : FQ
  p75 : FQ
  p90 : FQ
deriving DecidableEq

def dailyReturnF (mu sigma : FQ) (seed i t : ℕ) : FQ :=
  fExp (fAdd (fMul (fSub mu (fDiv (fMul sigma sigma) (some 2))) (some (1 / 252)))
    (fMul (fMul sigma (some (sqrtQ (1 / 252)))) (some (gauss seed i t))))

def pathPriceF (lp mu sigma : FQ) (seed i : ℕ) : ℕ → FQ
  | 0 => lp
  | t + 1 => fMul (pathPriceF lp mu sigma seed i t) (dailyReturnF mu sigma seed i t)

/-- `monte_carlo_simulation` on the NaN-tracking float model (percentile
outputs only, the fields run_prediction consumes). -/
def monte_carlo_simulationF (rngState : ℕ) (last_price annual_return annual_volatility : FQ)
    (days : ℕ) (n_simulations : ℕ := 1000) : MCResultF :=
  let seeded : ℕ := 42
  let final_prices := (List.range n_simulations).map
    (fun i => pathPriceF last_price annual_return annual_volatility seeded i days)
  { p10 := fPercentile final_prices 10
    p25 := fPercentile final_prices 25
    p50 := fPercentile final_prices 50
    p75 := fPercentile final_prices 75
    p90 := fPercentile final_prices 90 }

/-! ## `app/models/lstm_model.py` — scalers, sequence preparation, training -/

/-- `sklearn.preprocessing.MinMaxScaler` fitted state for one column
(feature_range = (0, 1)): data_min_/data_max_ of the fitted data. -/
structure MinMax where
  dataMin : ℚ
  dataMax : ℚ
deriving DecidableEq

/-- sklearn `scale_`: `(1 - 0) / (data_max - data_min)`, with a zero range
replaced by 1 (`_handle_zeros_in_scale`). -/
def MinMax.scale (s : MinMax) : ℚ :=
  if s.dataMax - s.dataMin = 0 then 1 else 1 / (s.dataMax - s.dataMin)

/-- sklearn `min_`: `feature_range[0] - data_min * scale_`. -/
def MinMax.minAdj (s : MinMax) : ℚ := -s.dataMin * s.scale

/-- sklearn `MinMaxScaler.transform` on one value: `x * scale_ + min_`. -/
def mmTransform (s : MinMax) (x : ℚ) : ℚ := x * s.scale + s.minAdj

/-- sklearn `MinMaxScaler.inverse_transform` on one value:
`(y - min_) / scale_`. -/
def mmInverse (s : MinMax) (y : ℚ) : ℚ := (y - s.minAdj) / s.scale

/-- Fit a `MinMaxScaler` on a 1-d sample. -/
def fitMinMax (l : List ℚ) : MinMax :=
  { dataMin := l.foldl min (l.headD 0), dataMax := l.foldl max (l.headD 0) }

/-- Column-wise fit of a `MinMaxScaler` on a 2-d array (sklearn fits one
(min, max) pair per column). -/
def fitColumnScalers (rows : List (List ℚ)) : List MinMax :=
  (List.range (rows.headD []).length).map
    (fun j => fitMinMax (rows.map (fun r => r.getD j 0)))

/-- Column-wise `transform` of a 2-d array. -/
def transformRows (scalers : List MinMax) (rows : List (List ℚ)) : List (List ℚ) :=
  rows.map (fun r => List.zipWith mmTransform scalers r)

def SEQUENCE_LENGTH : ℕ := 60

/-- The trained residual network, opaque: training happens in TensorFlow
(external to the modelled code), so the fitted network is an arbitrary
function from the scaled 60-step feature window to the scaled prediction. -/
structure LstmModel where
  net : List (List ℚ) → ℚ

/-- `prepare_lstm_data(features_df, residuals, seq_length=60)`: fit both
scalers, scale, and build the overlapping windows
`X[j] = scaled_features[j : j+60]`, `y[j] = scaled_target[j+60]`.
(The Python column filter selecting feature columns by name has already
been applied by the caller; rows hold feature columns only.) -/
def prepare_lstm_data (features : List (List ℚ)) (residuals : List ℚ) :
    List (List (List ℚ)) × List ℚ × List MinMax × MinMax :=
  let feature_scaler := fitColumnScalers features
  let target_scaler := fitMinMax residuals
  let scaled_features := transformRows feature_scaler features
  let scaled_target := residuals.map (mmTransform target_scaler)
  let X := (List.range (scaled_features.length - SEQUENCE_LENGTH)).map
    (fun j => (scaled_features.drop j).take SEQUENCE_LENGTH)
  let y := (List.range (scaled_features.length - SEQUENCE_LENGTH)).map
    (fun j => scaled_target.getD (j + SEQUENCE_LENGTH) 0)
  (X, y, feature_scaler, target_scaler)

/-- `train_lstm(features_df, residuals, ...)`: returns
`(None, feature_scaler, target_scaler)` when fewer than
`SEQUENCE_LENGTH + 10 = 70` sequences are available, otherwise the fitted
network.  `fitNet` stands for the external TensorFlow training loop. -/
def train_lstm (fitNet : List (List (List ℚ)) → List ℚ → LstmModel)
    (features : List (List ℚ)) (residuals : List ℚ) :
    Option LstmModel × List MinMax × MinMax :=
  let p := prepare_lstm_data features residuals
  let X := p.1
  let y := p.2.1
  if X.length < SEQUENCE_LENGTH + 10 then (none, p.2.2.1, p.2.2.2)
  else (some (fitNet X y), p.2.2.1, p.2.2.2)

/-- `predict_lstm_residual(model, recent_features, feature_scaler,
target_scaler)`: 0.0 for a missing model, otherwise scale the recent
window, run the network on its last 60 rows, inverse-scale the output. -/
def predict_lstm_residual (model : Option LstmModel) (recent : List (List ℚ))
    (feature_scaler : List MinMax) (target_scaler : MinMax) : ℚ :=
  match model with
  | none => 0
  | some m =>
    let scaled := transformRows feature_scaler recent
    mmInverse target_scaler (m.net (scaled.drop (scaled.length - SEQUENCE_LENGTH)))

/-! ## `app/predict.py` — horizon tables and the per-horizon ensemble loop -/

/-- `HORIZON_DAYS` of `app/models/prophet_model.py`. -/
def HORIZON_DAYS : List (String × ℕ) :=
  [("1mo", 21), ("6mo", 126), ("1yr", 252), ("2yr", 504),
   ("3yr", 756), ("4yr", 1008), ("5yr", 1260)]

/-- `LSTM_WEIGHTS` of `app/predict.py`. -/
def LSTM_WEIGHTS : List (String × ℚ) :=
  [("1mo", 6/10), ("6mo", 5/10), ("1yr", 4/10), ("2yr", 3/10),
   ("3yr", 2/10), ("4yr", 15/100), ("5yr", 1/10)]

/-- `HORIZON_DAYS.get(h, 252)`. -/
def horizonDays (h : String) : ℕ := (HORIZON_DAYS.lookup h).getD 252

/-- `LSTM_WEIGHTS.get(h, 0.3)`. -/
def lstmWeight (h : String) : ℚ := (LSTM_WEIGHTS.lookup h).getD (3/10)

/-- The rounded Monte Carlo percentile bundle attached to a horizon result. -/
structure MCBundle where
  p10 : ℚ
  p25 : ℚ
  p50 : ℚ
  p75 : ℚ
  p90 : ℚ
deriving DecidableEq

/-- One element of `horizon_results` in `run_prediction`. -/
structure HorizonResult where
  horizon : String
  predictedPrice : ℚ
  lowerBound : ℚ
  upperBound : ℚ
  changePercent : ℚ
  confidence : ℚ
  monteCarlo : Option MCBundle

/-- One iteration of the `for h in horizons` loop of `run_prediction`
(lines 105–162 of `app/predict.py`).

`prophetFc days` is `(yhat, yhat_lower, yhat_upper)` of the last row of
`prophet_forecast(prophet_model, periods=days)` (the Prophet library is
external; its forecast enters the loop only through these three floats).
`aligned_features` holds the feature-column values of `aligned_features[feature_cols]`,
and `rngState` is the ambient NumPy RNG state consumed by the Monte Carlo
simulation. -/
def horizonStep (rngState : ℕ) (prophetFc : ℕ → ℚ × ℚ × ℚ)
    (lstm_model : Option LstmModel) (aligned_features : List (List ℚ))
    (feat_scaler : List MinMax) (target_scaler : MinMax)
    (last_price annual_return annual_vol : ℚ) (h : String) : HorizonResult :=
  let days := horizonDays h
  let lstm_weight := lstmWeight h
  let prophet_end := prophetFc days
  let prophet_price := prophet_end.1
  let prophet_lower := prophet_end.2.1
  let prophet_upper := prophet_end.2.2
  let lstm_residual :=
    if lstm_model.isSome ∧ SEQUENCE_LENGTH ≤ aligned_features.length then
      predict_lstm_residual lstm_model
        (aligned_features.drop (aligned_features.length - SEQUENCE_LENGTH))
        feat_scaler target_scaler
    else 0
  let predicted_price := prophet_price + lstm_weight * lstm_residual
  let lower_bound := prophet_lower + lstm_weight * lstm_residual
  let upper_bound := prophet_upper + lstm_weight * lstm_residual
  let change_pct := (predicted_price - last_price) / last_price * 100
  let confidence := max (1/10) (85/100 * (1 - (days : ℚ) / 2520))
  let mc :=
    if 756 ≤ days then
      let r := monte_carlo_simulation rngState last_price annual_return annual_vol days
      some { p10 := round2 r.p10, p25 := round2 r.p25, p50 := round2 r.p50,
             p75 := round2 r.p75, p90 := round2 r.p90 }
    else none
  { horizon := h
    predictedPrice := round2 predicted_price
    lowerBound := round2 lower_bound
    upperBound := round2 upper_bound
    changePercent := round2 change_pct
    confidence := (roundHalfEven (confidence * 1000) : ℚ) / 1000
    monteCarlo := mc }

/-- `horizon_results` of `run_prediction`: the loop mapped over the
requested horizon labels. -/
def run_prediction_horizons (rngState : ℕ) (prophetFc : ℕ → ℚ × ℚ × ℚ)
    (lstm_model : Option LstmModel) (aligned_features : List (List ℚ))
    (feat_scaler : List MinMax) (target_scaler : MinMax)
    (last_price annual_return annual_vol : ℚ) (horizons : List String) :
    List HorizonResult :=
  horizons.map (horizonStep rngState prophetFc lstm_model aligned_features
    feat_scaler target_scaler last_price annual_return annual_vol)

/-! ## `app/features/engineering.py` — technical indicators and NaN warm-up

Cells are `Option ℚ`: `none` models a pandas NaN produced by an indicator
warm-up window.  The pandas / `ta`-library indicator routines are external;
they are modelled with their standard formulas and documented warm-up
(NaN-prefix) behaviour.  The claims settled on this table depend only on
the cells being defined or undefined, with the single exception of the
200-period simple moving average, whose warm-up prefix of exactly 199 NaN
rows is the documented behaviour of `pandas.Series.rolling(200).mean()`. -/

structure PriceRow where
  openPx : ℚ
  highPx : ℚ
  lowPx : ℚ
  closePx : ℚ
  volumePx : ℚ
deriving DecidableEq

instance : Inhabited PriceRow := ⟨⟨0, 0, 0, 0, 0⟩⟩

def closeAt (rows : List PriceRow) (i : ℕ) : ℚ := (rows.getD i default).closePx

def highAt (rows : List PriceRow) (i : ℕ) : ℚ := (rows.getD i default).highPx

def lowAt (rows : List PriceRow) (i : ℕ) : ℚ := (rows.getD i default).lowPx

def volumeAt (rows : List PriceRow) (i : ℕ) : ℚ := (rows.getD i default).volumePx

/-- `df["close"].rolling(window=w).mean()` at row `i`: NaN until the window
is full (the first `w - 1` rows), then the window average. -/
def smaCol (rows : List PriceRow) (w : ℕ) (i : ℕ) : Option ℚ :=
  if w ≤ i + 1 then
    some (((Finset.range w).sum (fun k => closeAt rows (i - k))) / (w : ℚ))
  else none

/-- `df["close"].ewm(span=w, adjust=False).mean()` at row `i`: defined from
row 0, recursive exponential smoothing with `α = 2 / (w + 1)`. -/
def emaAt (rows : List PriceRow) (w : ℕ) : ℕ → ℚ
  | 0 => closeAt rows 0
  | i + 1 =>
    (2 / ((w : ℚ) + 1)) * closeAt rows (i + 1) + (1 - 2 / ((w : ℚ) + 1)) * emaAt rows w i

def emaCol (rows : List PriceRow) (w : ℕ) (i : ℕ) : Option ℚ := some (emaAt rows w i)

/-- Close-to-close gain at row `i` (`max(diff, 0)` of `close.diff()`). -/
def gainAt (rows : List PriceRow) (i : ℕ) : ℚ :=
  max (closeAt rows i - closeAt rows (i - 1)) 0

/-- Close-to-close loss at row `i`. -/
def lossAt (rows : List PriceRow) (i : ℕ) : ℚ :=
  max (closeAt rows (i - 1) - closeAt rows i) 0

/-- Wilder-smoothed average gain (`ewm(alpha=1/14)` over the diff series,
which starts at row 1). -/
def avgGainAt (rows : List PriceRow) : ℕ → ℚ
  | 0 => 0
  | 1 => gainAt rows 1
  | i + 2 => (13/14) * avgGainAt rows (i + 1) + (1/14) * gainAt rows (i + 2)

def avgLossAt (rows : List PriceRow) : ℕ → ℚ
  | 0 => 0
  | 1 => lossAt rows 1
  | i + 2 => (13/14) * avgLossAt rows (i + 1) + (1/14) * lossAt rows (i + 2)

/-- `ta.momentum.rsi(close, window=14)` at row `i` (modelled from the `ta`
library: Wilder smoothing with `min_periods = 14`, so the first 14 rows are
NaN; an all-gain window reads 100). -/
def rsiCol (rows : List PriceRow) (i : ℕ) : Option ℚ :=
  if 14 ≤ i then
    some (if avgLossAt rows i = 0 then 100
      else 100 - 100 / (1 + avgGainAt rows i / avgLossAt rows i))
  else none

/-- `macd.macd()`: fast EMA(12) − slow EMA(26), NaN during the slow
window's warm-up (first 25 rows). -/
def macdCol (rows : List PriceRow) (i : ℕ) : Option ℚ :=
  if 25 ≤ i then some (emaAt rows 12 i - emaAt rows 26 i) else none

def macdLineAt (rows : List PriceRow) (i : ℕ) : ℚ := emaAt rows 12 i - emaAt rows 26 i

/-- EMA(9) of the MACD line, seeded at the MACD line's first valid row 25. -/
def macdSignalAt (rows : List PriceRow) : ℕ → ℚ
  | 0 => macdLineAt rows 0
  | i + 1 =>
    if i + 1 ≤ 25 then macdLineAt rows (i + 1)
    else (2/10) * macdLineAt rows (i + 1) + (8/10) * macdSignalAt rows i

/-- `macd.macd_signal()`: NaN until the signal window is also full (first
33 rows). -/
def macdSignalCol (rows : List PriceRow) (i : ℕ) : Option ℚ :=
  if 33 ≤ i then some (macdSignalAt rows i) else none

/-- `macd.macd_diff()`: MACD line − signal line, same warm-up as the
signal. -/
def macdDiffCol (rows : List PriceRow) (i : ℕ) : Option ℚ :=
  if 33 ≤ i then some (macdLineAt rows i - macdSignalAt rows i) else none

/-- Rolling mean of close over `w` rows ending at `i` (assumes `w ≤ i+1`). -/
def rollMeanAt (rows : List PriceRow) (w i : ℕ) : ℚ :=
  ((Finset.range w).sum (fun k => closeAt rows (i - k))) / (w : ℚ)

/-- Population (ddof = 0) rolling standard deviation of close, as the `ta`
Bollinger implementation uses. -/
def rollStdAt (rows : List PriceRow) (w i : ℕ) : ℚ :=
  sqrtQ (((Finset.range w).sum
    (fun k => (closeAt rows (i - k) - rollMeanAt rows w i) ^ 2)) / (w : ℚ))

/-- `bb.bollinger_hband()`: 20-row mean + 2·std, NaN for the first 19 rows. -/
def bbUpperCol (rows : List PriceRow) (i : ℕ) : Option ℚ :=
  if 20 ≤ i + 1 then some (rollMeanAt rows 20 i + 2 * rollStdAt rows 20 i) else none

def bbLowerCol (rows : List PriceRow) (i : ℕ) : Option ℚ :=
  if 20 ≤ i + 1 then some (rollMeanAt rows 20 i - 2 * rollStdAt rows 20 i) else none

def bbMidCol (rows : List PriceRow) (i : ℕ) : Option ℚ :=
  if 20 ≤ i + 1 then some (rollMeanAt rows 20 i) else none

/-- `(bb_upper - bb_lower) / bb_mid`. -/
def bbWidthCol (rows : List PriceRow) (i : ℕ) : Option ℚ :=
  if 20 ≤ i + 1 then some (4 * rollStdAt rows 20 i / rollMeanAt rows 20 i) else none

/-- True range at row `i`. -/
def trueRangeAt (rows : List PriceRow) (i : ℕ) : ℚ :=
  match i with
  | 0 => highAt rows 0 - lowAt rows 0
  | k + 1 => max (highAt rows (k + 1) - lowAt rows (k + 1))
      (max (abs (highAt rows (k + 1) - closeAt rows k))
        (abs (lowAt rows (k + 1) - closeAt rows k)))

/-- Wilder-smoothed average true range recursion. -/
def atrAt (rows : List PriceRow) : ℕ → ℚ
  | 0 => trueRangeAt rows 0
  | i + 1 => (13/14) * atrAt rows i + (1/14) * trueRangeAt rows (i + 1)

/-- `ta.volatility.average_true_range(..., window=14)`: NaN for the first
14 rows (modelled warm-up), Wilder smoothing afterwards. -/
def atrCol (rows : List PriceRow) (i : ℕ) : Option ℚ :=
  if 14 ≤ i then some (atrAt rows i) else none

/-- `ta.volume.on_balance_volume`: cumulative volume signed by the close
direction, defined from row 0. -/
def obvAt (rows : List PriceRow) : ℕ → ℚ
  | 0 => volumeAt rows 0
  | i + 1 => obvAt rows i +
      (if closeAt rows (i + 1) < closeAt rows i then -(volumeAt rows (i + 1))
       else volumeAt rows (i + 1))

def obvCol (rows : List PriceRow) (i : ℕ) : Option ℚ := some (obvAt rows i)

/-- `ta.momentum.roc(close, window=10)`: NaN for the first 10 rows. -/
def rocCol (rows : List PriceRow) (i : ℕ) : Option ℚ :=
  if 10 ≤ i then
    some ((closeAt rows i - closeAt rows (i - 10)) / closeAt rows (i - 10) * 100)
  else none

/-- `df["close"].pct_change(k)` at row `i`: NaN for the first `k` rows. -/
def returnCol (rows : List PriceRow) (k i : ℕ) : Option ℚ :=
  if k ≤ i then
    some ((closeAt rows i - closeAt rows (i - k)) / closeAt rows (i - k))
  else none

/-- 1-period return as a total value (used inside the rolling std below,
only for rows where it is defined). -/
def return1At (rows : List PriceRow) (i : ℕ) : ℚ :=
  (closeAt rows i - closeAt rows (i - 1)) / closeAt rows (i - 1)

/-- `df["return_1d"].rolling(20).std() * np.sqrt(252)`: the window needs 20
defined 1-period returns, so rows 0–19 are NaN; sample (ddof = 1) std. -/
def volatilityCol (rows : List PriceRow) (i : ℕ) : Option ℚ :=
  if 20 ≤ i then
    some (sqrtQ (((Finset.range 20).sum
      (fun k => (return1At rows (i - k) -
        ((Finset.range 20).sum (fun m => return1At rows (i - m))) / 20) ^ 2)) / 19)
      * sqrtQ 252)
  else none

/-- Row `i` of the feature table built by `add_technical_indicators`
(cells in DataFrame column order, the date column aside), followed by the
market-context columns added by `add_market_features`.  The context columns
(`sp500`, `vix`, `tnx` after the left join and forward fill, and
`sp500_return`) are external data; they are passed in as arbitrary
per-row optional values, which covers every possible join result as well
as the `market_data=None` path (`marketCols = []`). -/
def featureRowCells (rows : List PriceRow) (marketCols : List (ℕ → Option ℚ))
    (i : ℕ) : List (Option ℚ) :=
  [some (rows.getD i default).openPx, some (rows.getD i default).highPx,
   some (rows.getD i default).lowPx, some (rows.getD i default).closePx,
   some (rows.getD i default).volumePx,
   smaCol rows 5 i, smaCol rows 20 i, smaCol rows 50 i, smaCol rows 200 i,
   emaCol rows 5 i, emaCol rows 20 i, emaCol rows 50 i, emaCol rows 200 i,
   rsiCol rows i, macdCol rows i, macdSignalCol rows i, macdDiffCol rows i,
   bbUpperCol rows i, bbLowerCol rows i, bbMidCol rows i, bbWidthCol rows i,
   atrCol rows i, obvCol rows i, rocCol rows i,
   returnCol rows 1 i, returnCol rows 5 i, returnCol rows 20 i,
   volatilityCol rows i] ++ marketCols.map (fun c => c i)

/-- Indices of the rows kept by `df.dropna()` in `prepare_features`. -/
def keptIndices (rows : List PriceRow) (marketCols : List (ℕ → Option ℚ)) : List ℕ :=
  (List.range rows.length).filter
    (fun i => (featureRowCells rows marketCols i).all Option.isSome)

/-- `prepare_features(df, market_data)`: the full feature-engineering
pipeline — add the indicator columns, add the market-context columns, and
drop every row containing a NaN. -/
def prepare_features (rows : List PriceRow) (marketCols : List (ℕ → Option ℚ)) :
    List (List (Option ℚ)) :=
  (keptIndices rows marketCols).map (featureRowCells rows marketCols)

/-! ## Helper lemmas -/

theorem kept_all_isSome (rows : List PriceRow) (marketCols : List (ℕ → Option ℚ)) :
    ∀ r ∈ prepare_features rows marketCols, ∀ c ∈ r, c.isSome := by
  intro r hr c hc
  rw [prepare_features] at hr
  obtain ⟨i, hi, rfl⟩ := List.mem_map.mp hr
  have hall := (List.mem_filter.mp hi).2
  exact List.all_eq_true.mp hall c hc

theorem kept_ge_199 (rows : List PriceRow) (marketCols : List (ℕ → Option ℚ)) :
    ∀ i ∈ keptIndices rows marketCols, 199 ≤ i := by
  intro i hi
  have hall := (List.mem_filter.mp hi).2
  have hm : smaCol rows 200 i ∈ featureRowCells rows marketCols i := by
    simp [featureRowCells]
  have hsome := List.all_eq_true.mp hall _ hm
  unfold smaCol at hsome
  split at hsome
  · omega
  · simp at hsome

theorem pathPrice_pos (lp mu sigma : ℚ) (seed i : ℕ) (hlp : 0 < lp) :
    ∀ t, 0 < pathPrice lp mu sigma seed i t := by
  intro t
  induction t with
  | zero => exact hlp
  | succ k ih => exact mul_pos ih (qexp_pos _)

theorem fMul_none_right (x : FQ) : fMul x none = none := by cases x <;> rfl

theorem dailyReturnF_none (mu sigma : FQ) (hnf : mu = none ∨ sigma = none)
    (seed i t : ℕ) : dailyReturnF mu sigma seed i t = none := by
  rcases hnf with rfl | rfl
  · cases sigma <;> rfl
  · cases mu <;> rfl

theorem pathPriceF_none (lp mu sigma : FQ) (hnf : mu = none ∨ sigma = none)
    (seed i t : ℕ) (ht : 1 ≤ t) : pathPriceF lp mu sigma seed i t = none := by
  cases t with
  | zero => omega
  | succ k =>
    show fMul (pathPriceF lp mu sigma seed i k) (dailyReturnF mu sigma seed i k) = none
    rw [dailyReturnF_none mu sigma hnf]
    exact fMul_none_right _

/-! ## Claim theorems -/

/-- C1: two invocations of the Monte Carlo simulation with identical last
price, drift, volatility and day count (and the same path count) produce
identical percentile outputs regardless of the ambient RNG state — the
constant `np.random.seed(42)` makes the simulation a deterministic function
of those inputs. -/
theorem monte_carlo_deterministic (s1 s2 : ℕ) (last_price annual_return annual_volatility : ℚ)
    (days n_simulations : ℕ) :
    monte_carlo_simulation s1 last_price annual_return annual_volatility days n_simulations =
      monte_carlo_simulation s2 last_price annual_return annual_volatility days n_simulations := rfl

/-- C4: a horizon's result carries a Monte Carlo bundle exactly when the
horizon's resolved trading-day count is at least 756. -/
theorem monte_carlo_bundle_iff (rng : ℕ) (pf : ℕ → ℚ × ℚ × ℚ) (m : Option LstmModel)
    (af : List (List ℚ)) (fs : List MinMax) (ts : MinMax) (lp ar av : ℚ) (h : String) :
    (horizonStep rng pf m af fs ts lp ar av h).monteCarlo.isSome ↔ 756 ≤ horizonDays h := by
  by_cases hd : 756 ≤ horizonDays h <;> simp [horizonStep, hd]

/-- C5: every row of the feature table returned by `prepare_features` is
free of undefined (NaN) cells, and every surviving row index is at least
199 — the 199 leading warm-up rows of the 200-period moving average are
always absent from the output. -/
theorem prepare_features_complete (rows : List PriceRow) (marketCols : List (ℕ → Option ℚ)) :
    (∀ r ∈ prepare_features rows marketCols, ∀ c ∈ r, c.isSome) ∧
    (∀ i ∈ keptIndices rows marketCols, 199 ≤ i) :=
  ⟨kept_all_isSome rows marketCols, kept_ge_199 rows marketCols⟩

theorem hd_1mo : horizonDays "1mo" = 21 := rfl
theorem hd_6mo : horizonDays "6mo" = 126 := rfl
theorem hd_1yr : horizonDays "1yr" = 252 := rfl
theorem hd_2yr : horizonDays "2yr" = 504 := rfl
theorem hd_3yr : horizonDays "3yr" = 756 := rfl
theorem hd_4yr : horizonDays "4yr" = 1008 := rfl
theorem hd_5yr : horizonDays "5yr" = 1260 := rfl
theorem hw_1mo : lstmWeight "1mo" = 6/10 := rfl
theorem hw_6mo : lstmWeight "6mo" = 5/10 := rfl
theorem hw_1yr : lstmWeight "1yr" = 4/10 := rfl
theorem hw_2yr : lstmWeight "2yr" = 3/10 := rfl
theorem hw_3yr : lstmWeight "3yr" = 2/10 := rfl
theorem hw_4yr : lstmWeight "4yr" = 15/100 := rfl
theorem hw_5yr : lstmWeight "5yr" = 1/10 := rfl

/-- C6: across the fixed horizon schedule the ensemble weight strictly
decreases as the horizon's trading-day count increases. -/
theorem lstm_weights_strictly_decreasing :
    ∀ h1 ∈ HORIZON_DAYS.map Prod.fst, ∀ h2 ∈ HORIZON_DAYS.map Prod.fst,
      horizonDays h1 < horizonDays h2 → lstmWeight h2 < lstmWeight h1 := by
  intro h1 hm1 h2 hm2
  fin_cases hm1 <;> fin_cases hm2 <;>
    norm_num [hd_1mo, hd_6mo, hd_1yr, hd_2yr, hd_3yr, hd_4yr, hd_5yr,
      hw_1mo, hw_6mo, hw_1yr, hw_2yr, hw_3yr, hw_4yr, hw_5yr]

/-- C6 witness: instantiated at the 1mo/6mo pair. -/
theorem lstm_weights_strictly_decreasing_witness :
    "1mo" ∈ HORIZON_DAYS.map Prod.fst ∧ "6mo" ∈ HORIZON_DAYS.map Prod.fst ∧
      (horizonDays "1mo" < horizonDays "6mo" → lstmWeight "6mo" < lstmWeight "1mo") :=
  ⟨by decide, by decide,
    lstm_weights_strictly_decreasing "1mo" (by decide) "6mo" (by decide)⟩

/-- C9: the min-max target scaler fitted on the training residuals
round-trips: inverse-transforming the transform of any value in the fitted
range returns that value within 1e-6 (in the exact-rational float model the
round trip is exact). -/
theorem scaler_roundtrip (residuals : List ℚ) (x : ℚ)
    (h1 : (fitMinMax residuals).dataMin ≤ x) (h2 : x ≤ (fitMinMax residuals).dataMax) :
    |mmInverse (fitMinMax residuals) (mmTransform (fitMinMax residuals) x) - x| ≤ 1/1000000 := by
  have hs : (fitMinMax residuals).scale ≠ 0 := by
    unfold MinMax.scale
    split
    · norm_num
    · exact one_div_ne_zero (by assumption)
  have hx : mmInverse (fitMinMax residuals) (mmTransform (fitMinMax residuals) x) = x := by
    unfold mmInverse mmTransform
    field_simp
  rw [hx]
  norm_num

/-- C9 witness: scaler fitted on residuals [1, 2, 3], value 2. -/
theorem scaler_roundtrip_witness :
    (fitMinMax [1, 2, 3]).dataMin ≤ (2 : ℚ) ∧ (2 : ℚ) ≤ (fitMinMax [1, 2, 3]).dataMax ∧
      |mmInverse (fitMinMax [1, 2, 3]) (mmTransform (fitMinMax [1, 2, 3]) 2) - 2| ≤ 1/1000000 :=
  ⟨by decide, by decide, scaler_roundtrip [1, 2, 3] 2 (by decide) (by decide)⟩

/-- C3: when fewer than 70 usable training sequences exist (60-step window
plus the 10-sequence minimum), `train_lstm` returns no model — no error is
raised — the residual prediction degrades to exactly zero, and every
horizon's ensemble predicted price is the (rounded) unmodified baseline
point forecast. -/
theorem lstm_insufficient_sequences (fitNet : List (List (List ℚ)) → List ℚ → LstmModel)
    (features : List (List ℚ)) (residuals : List ℚ)
    (h : (prepare_lstm_data features residuals).1.length < 70) :
    (train_lstm fitNet features residuals).1 = none ∧
    (∀ recent fs2 ts2,
      predict_lstm_residual (train_lstm fitNet features residuals).1 recent fs2 ts2 = 0) ∧
    (∀ rng pf af lp ar av hz,
      (horizonStep rng pf (train_lstm fitNet features residuals).1 af
          (train_lstm fitNet features residuals).2.1
          (train_lstm fitNet features residuals).2.2 lp ar av hz).predictedPrice
        = round2 (pf (horizonDays hz)).1) := by
  have hm : (train_lstm fitNet features residuals).1 = none := by
    unfold train_lstm
    have h70 : (prepare_lstm_data features residuals).1.length < SEQUENCE_LENGTH + 10 := by
      unfold SEQUENCE_LENGTH
      omega
    simp [h70]
  refine ⟨hm, ?_, ?_⟩
  · intro recent fs2 ts2
    rw [hm]
    rfl
  · intro rng pf af lp ar av hz
    rw [hm]
    show round2 ((pf (horizonDays hz)).1 + lstmWeight hz *
      (if (none : Option LstmModel).isSome ∧ SEQUENCE_LENGTH ≤ af.length then _ else 0))
        = round2 (pf (horizonDays hz)).1
    simp

/-- C3 witness: 10 feature rows yield 0 usable sequences. -/
theorem lstm_insufficient_sequences_witness :
    (prepare_lstm_data (List.replicate 10 [0]) (List.replicate 10 0)).1.length < 70 ∧
      (train_lstm (fun _ _ => ⟨fun _ => 0⟩) (List.replicate 10 [0])
        (List.replicate 10 0)).1 = none :=
  ⟨by decide, (lstm_insufficient_sequences (fun _ _ => ⟨fun _ => 0⟩)
    (List.replicate 10 [0]) (List.replicate 10 0) (by decide)).1⟩

theorem roundHalfEven_intCast (n : ℤ) : roundHalfEven (n : ℚ) = n := by
  unfold roundHalfEven
  rw [Int.floor_intCast]
  norm_num

theorem round2_intCast (n : ℤ) : round2 (n : ℚ) = n := by
  unfold round2
  rw [show ((n : ℚ) * 100) = ((n * 100 : ℤ) : ℚ) by push_cast; ring, roundHalfEven_intCast]
  push_cast
  field_simp

/-- C2: for every horizon, the stored predicted price is the (rounded)
baseline point forecast plus the horizon's ensemble weight times the
residual correction; the lower and upper bounds are shifted by exactly the
same weighted correction; and the percent change is
`(predicted − last close) / last close × 100`.  In particular, with last
close 200.0, baseline point 210.0, residual 5.0 and weight 0.4 (the `1yr`
horizon), the predicted price is 212.0 and the change percent is 6.0. -/
theorem ensemble_blend :
    (∀ (rng : ℕ) (pf : ℕ → ℚ × ℚ × ℚ) (m : Option LstmModel) (af : List (List ℚ))
      (fs : List MinMax) (ts : MinMax) (lp ar av : ℚ) (hz : String),
      (horizonStep rng pf m af fs ts lp ar av hz).predictedPrice =
        round2 ((pf (horizonDays hz)).1 + lstmWeight hz *
          (if m.isSome ∧ SEQUENCE_LENGTH ≤ af.length then
            predict_lstm_residual m (af.drop (af.length - SEQUENCE_LENGTH)) fs ts
          else 0)) ∧
      (horizonStep rng pf m af fs ts lp ar av hz).lowerBound =
        round2 ((pf (horizonDays hz)).2.1 + lstmWeight hz *
          (if m.isSome ∧ SEQUENCE_LENGTH ≤ af.length then
            predict_lstm_residual m (af.drop (af.length - SEQUENCE_LENGTH)) fs ts
          else 0)) ∧
      (horizonStep rng pf m af fs ts lp ar av hz).upperBound =
        round2 ((pf (horizonDays hz)).2.2 + lstmWeight hz *
          (if m.isSome ∧ SEQUENCE_LENGTH ≤ af.length then
            predict_lstm_residual m (af.drop (af.length - SEQUENCE_LENGTH)) fs ts
          else 0)) ∧
      (horizonStep rng pf m af fs ts lp ar av hz).changePercent =
        round2 ((((pf (horizonDays hz)).1 + lstmWeight hz *
          (if m.isSome ∧ SEQUENCE_LENGTH ≤ af.length then
            predict_lstm_residual m (af.drop (af.length - SEQUENCE_LENGTH)) fs ts
          else 0)) - lp) / lp * 100)) ∧
    ((horizonStep 0 (fun _ => (210, 205, 215)) (some ⟨fun _ => 5⟩)
        (List.replicate 60 [0]) [⟨0, 0⟩] ⟨0, 0⟩ 200 0 0 "1yr").predictedPrice = 212 ∧
      (horizonStep 0 (fun _ => (210, 205, 215)) (some ⟨fun _ => 5⟩)
        (List.replicate 60 [0]) [⟨0, 0⟩] ⟨0, 0⟩ 200 0 0 "1yr").changePercent = 6) := by
  refine ⟨fun rng pf m af fs ts lp ar av hz => ⟨rfl, rfl, rfl, rfl⟩, ?_, ?_⟩
  · have h1 : (horizonStep 0 (fun _ => (210, 205, 215)) (some ⟨fun _ => 5⟩)
        (List.replicate 60 [0]) [⟨0, 0⟩] ⟨0, 0⟩ 200 0 0 "1yr").predictedPrice
        = round2 ((212 : ℤ) : ℚ) := by
      norm_num [horizonStep, SEQUENCE_LENGTH, hd_1yr, hw_1yr, predict_lstm_residual,
        transformRows, mmTransform, mmInverse, MinMax.scale, MinMax.minAdj]
    rw [h1, round2_intCast]
    norm_num
  · have h1 : (horizonStep 0 (fun _ => (210, 205, 215)) (some ⟨fun _ => 5⟩)
        (List.replicate 60 [0]) [⟨0, 0⟩] ⟨0, 0⟩ 200 0 0 "1yr").changePercent
        = round2 ((6 : ℤ) : ℚ) := by
      norm_num [horizonStep, SEQUENCE_LENGTH, hd_1yr, hw_1yr, predict_lstm_residual,
        transformRows, mmTransform, mmInverse, MinMax.scale, MinMax.minAdj]
    rw [h1, round2_intCast]
    norm_num

/-- C10: with a strictly positive last price (and any finite drift,
volatility and day count — all rationals of the model are finite), every
simulated terminal price is strictly positive, since each daily factor is
an exponential, and the returned percentiles are ordered
`p10 ≤ p25 ≤ p50 ≤ p75 ≤ p90`. -/
theorem monte_carlo_positive_ordered (rng : ℕ) (lp mu sig : ℚ) (days nsim : ℕ)
    (h : 0 < lp) :
    (∀ p ∈ mcFinalPrices rng lp mu sig days nsim, 0 < p) ∧
    (monte_carlo_simulation rng lp mu sig days nsim).p10 ≤
      (monte_carlo_simulation rng lp mu sig days nsim).p25 ∧
    (monte_carlo_simulation rng lp mu sig days nsim).p25 ≤
      (monte_carlo_simulation rng lp mu sig days nsim).p50 ∧
    (monte_carlo_simulation rng lp mu sig days nsim).p50 ≤
      (monte_carlo_simulation rng lp mu sig days nsim).p75 ∧
    (monte_carlo_simulation rng lp mu sig days nsim).p75 ≤
      (monte_carlo_simulation rng lp mu sig days nsim).p90 := by
  refine ⟨?_, ?_, ?_, ?_, ?_⟩
  · intro p hp
    unfold mcFinalPrices at hp
    obtain ⟨i, _, rfl⟩ := List.mem_map.mp hp
    exact pathPrice_pos lp mu sig 42 i h _
  · exact npPercentile_mono _ (by norm_num) (by norm_num) (by norm_num)
  · exact npPercentile_mono _ (by norm_num) (by norm_num) (by norm_num)
  · exact npPercentile_mono _ (by norm_num) (by norm_num) (by norm_num)
  · exact npPercentile_mono _ (by norm_num) (by norm_num) (by norm_num)

/-- C10 witness: last price 100, zero drift and volatility, one day, two
paths. -/
theorem monte_carlo_positive_ordered_witness :
    (0 : ℚ) < 100 ∧
    ((∀ p ∈ mcFinalPrices 0 100 0 0 1 2, 0 < p) ∧
      (monte_carlo_simulation 0 100 0 0 1 2).p10 ≤ (monte_carlo_simulation 0 100 0 0 1 2).p25 ∧
      (monte_carlo_simulation 0 100 0 0 1 2).p25 ≤ (monte_carlo_simulation 0 100 0 0 1 2).p50 ∧
      (monte_carlo_simulation 0 100 0 0 1 2).p50 ≤ (monte_carlo_simulation 0 100 0 0 1 2).p75 ∧
      (monte_carlo_simulation 0 100 0 0 1 2).p75 ≤ (monte_carlo_simulation 0 100 0 0 1 2).p90) :=
  ⟨by decide, monte_carlo_positive_ordered 0 100 0 0 1 2 (by decide)⟩

/-- C7 counterexample: invoked with a non-finite (NaN) volatility, the
Monte Carlo simulation does NOT fail — it silently returns NaN for every
percentile output (here: last price 100, zero drift, NaN volatility,
2 days, 2 paths). -/
theorem monte_carlo_nan_counterexample :
    (monte_carlo_simulationF 0 (some 100) (some 0) none 2 2).p10 = none ∧
    (monte_carlo_simulationF 0 (some 100) (some 0) none 2 2).p25 = none ∧
    (monte_carlo_simulationF 0 (some 100) (some 0) none 2 2).p50 = none ∧
    (monte_carlo_simulationF 0 (some 100) (some 0) none 2 2).p75 = none ∧
    (monte_carlo_simulationF 0 (some 100) (some 0) none 2 2).p90 = none := by
  refine ⟨rfl, rfl, rfl, rfl, rfl⟩

/-- C7 (amended): invoked with a non-finite (NaN) drift or a non-finite
volatility (either input alone suffices), the Monte Carlo simulation
silently propagates the non-finite value — every percentile output is NaN
and no error is signalled — while the rest of the horizon's result
(predicted price, bounds, percent change, confidence) is computed
independently of both the drift and the volatility inputs and remains
intact. -/
theorem monte_carlo_nan_propagates (rng : ℕ) (lp mu sigma : FQ) (days nsim : ℕ)
    (hd : 1 ≤ days) (hn : 1 ≤ nsim) (hnf : mu = none ∨ sigma = none) :
    ((monte_carlo_simulationF rng lp mu sigma days nsim).p10 = none ∧
      (monte_carlo_simulationF rng lp mu sigma days nsim).p25 = none ∧
      (monte_carlo_simulationF rng lp mu sigma days nsim).p50 = none ∧
      (monte_carlo_simulationF rng lp mu sigma days nsim).p75 = none ∧
      (monte_carlo_simulationF rng lp mu sigma days nsim).p90 = none) ∧
    (∀ (pf : ℕ → ℚ × ℚ × ℚ) (m : Option LstmModel) (af : List (List ℚ))
      (fs : List MinMax) (ts : MinMax) (lp2 ar ar' v v' : ℚ) (hz : String),
      (horizonStep rng pf m af fs ts lp2 ar v hz).predictedPrice =
        (horizonStep rng pf m af fs ts lp2 ar' v' hz).predictedPrice ∧
      (horizonStep rng pf m af fs ts lp2 ar v hz).lowerBound =
        (horizonStep rng pf m af fs ts lp2 ar' v' hz).lowerBound ∧
      (horizonStep rng pf m af fs ts lp2 ar v hz).upperBound =
        (horizonStep rng pf m af fs ts lp2 ar' v' hz).upperBound ∧
      (horizonStep rng pf m af fs ts lp2 ar v hz).changePercent =
        (horizonStep rng pf m af fs ts lp2 ar' v' hz).changePercent ∧
      (horizonStep rng pf m af fs ts lp2 ar v hz).confidence =
        (horizonStep rng pf m af fs ts lp2 ar' v' hz).confidence) := by
  have hany : ((List.range nsim).map
      (fun i => pathPriceF lp mu sigma 42 i days)).any Option.isNone = true := by
    rw [List.any_eq_true]
    refine ⟨pathPriceF lp mu sigma 42 0 days,
      List.mem_map.mpr ⟨0, List.mem_range.mpr (by omega), rfl⟩, ?_⟩
    rw [pathPriceF_none lp mu sigma hnf 42 0 days hd]
    rfl
  have hperc : ∀ q : ℚ, fPercentile ((List.range nsim).map
      (fun i => pathPriceF lp mu sigma 42 i days)) q = none := by
    intro q
    unfold fPercentile
    simp [hany]
  refine ⟨⟨hperc 10, hperc 25, hperc 50, hperc 75, hperc 90⟩, ?_⟩
  intro pf m af fs ts lp2 ar ar' v v' hz
  exact ⟨rfl, rfl, rfl, rfl, rfl⟩

/-- C7 witness: finite drift 0.0 with NaN volatility, two days, two paths. -/
theorem monte_carlo_nan_propagates_witness :
    1 ≤ 2 ∧ 1 ≤ 2 ∧ ((some (0 : ℚ) : FQ) = none ∨ (none : FQ) = none) ∧
    (((monte_carlo_simulationF 0 (some 100) (some 0) none 2 2).p10 = none ∧
      (monte_carlo_simulationF 0 (some 100) (some 0) none 2 2).p25 = none ∧
      (monte_carlo_simulationF 0 (some 100) (some 0) none 2 2).p50 = none ∧
      (monte_carlo_simulationF 0 (some 100) (some 0) none 2 2).p75 = none ∧
      (monte_carlo_simulationF 0 (some 100) (some 0) none 2 2).p90 = none) ∧
    (∀ (pf : ℕ → ℚ × ℚ × ℚ) (m : Option LstmModel) (af : List (List ℚ))
      (fs : List MinMax) (ts : MinMax) (lp2 ar ar' v v' : ℚ) (hz : String),
      (horizonStep 0 pf m af fs ts lp2 ar v hz).predictedPrice =
        (horizonStep 0 pf m af fs ts lp2 ar' v' hz).predictedPrice ∧
      (horizonStep 0 pf m af fs ts lp2 ar v hz).lowerBound =
        (horizonStep 0 pf m af fs ts lp2 ar' v' hz).lowerBound ∧
      (horizonStep 0 pf m af fs ts lp2 ar v hz).upperBound =
        (horizonStep 0 pf m af fs ts lp2 ar' v' hz).upperBound ∧
      (horizonStep 0 pf m af fs ts lp2 ar v hz).changePercent =
        (horizonStep 0 pf m af fs ts lp2 ar' v' hz).changePercent ∧
      (horizonStep 0 pf m af fs ts lp2 ar v hz).confidence =
        (horizonStep 0 pf m af fs ts lp2 ar' v' hz).confidence)) :=
  ⟨by decide, by decide, Or.inr rfl,
    monte_carlo_nan_propagates 0 (some 100) (some 0) none 2 2
      (by decide) (by decide) (Or.inr rfl)⟩
